import Mathlib

/-!
Verification development for the SearchPro unified indexing & ranked-search
service (`app/` in the repository): the record store and its derived
search-vector maintenance (`app/main.py` DDL triggers, `app/models.py`),
the upsert/bulk ingestion path (`app/routers/indexes.py`), and the ranked
search path (`app/routers/search.py`), shallowly embedded as pure Lean
functions over an explicit store state.

Timestamps are modelled as natural numbers counting microseconds, matching
the microsecond resolution of the `datetime` values the code compares.
PostgreSQL builtins used by the code (`to_tsvector`, `plainto_tsquery`,
`@@`, `ts_rank_cd`, `ILIKE`) are modelled as executable functions on
tokenized lowercase text; stemming and stop-word removal of the `english`
configuration are simplified to lowercase alphanumeric-word tokenization,
which the claims under study do not depend on.
-/

namespace SearchPro

/-- Lowercased character list of a string; the model of `lower(s)` used by
both `ILIKE` and `to_tsvector` below. -/
def lowerStr (s : String) : List Char :=
  s.data.map Char.toLower

/-- SQL `LIKE` pattern matching on character lists (pattern, then text):
`%` matches any sequence, `_` any single character, backslash escapes the
next pattern character, everything else matches literally. This models the
PostgreSQL `LIKE`/`ILIKE` operator applied by `unified_search` and
`search_suggestions` in `app/routers/search.py`. -/
def likeMatch : List Char → List Char → Bool
  | [], s => s.isEmpty
  | p :: ps, s =>
    if p = '%' then
      s.tails.any (fun t => likeMatch ps t)
    else if p = '\\' then
      match ps, s with
      | e :: ps2, c :: cs => e == c && likeMatch ps2 cs
      | _, _ => false
    else
      match s with
      | [] => false
      | c :: cs => (p = '_' || p == c) && likeMatch ps cs

/-- Case-insensitive `ILIKE`: lower both operands, then `LIKE`-match. -/
def ilikeB (text pattern : String) : Bool :=
  likeMatch (lowerStr pattern) (lowerStr text)

/-- Boolean "needle is a prefix of hay" on character lists. -/
def prefixB : List Char → List Char → Bool
  | [], _ => true
  | _ :: _, [] => false
  | a :: as, b :: bs => a == b && prefixB as bs

/-- Boolean "needle occurs contiguously inside hay" on character lists. -/
def subListOf (needle : List Char) : List Char → Bool
  | [] => prefixB needle []
  | c :: t => prefixB needle (c :: t) || subListOf needle t

/-- The spec's wording of the fallback match: `title` contains `q` as a
case-insensitive substring. Stated from the spec's words, to be compared
with the `ILIKE`-based fallback the code actually executes. -/
def containsCI (hay needle : String) : Bool :=
  subListOf (lowerStr needle) (lowerStr hay)

/-- `q` (already lowercased) contains no `LIKE` metacharacter. -/
def noMeta (cs : List Char) : Bool :=
  cs.all (fun c => !(c == '%' || c == '_' || c == '\\'))

/-- Word tokenizer: maximal runs of alphanumeric characters, as strings.
Auxiliary accumulator-based recursion over the character list. -/
def wordsAux : List Char → List Char → List String
  | [], acc => if acc.isEmpty then [] else [String.mk acc.reverse]
  | c :: cs, acc =>
    if c.isAlphanum then wordsAux cs (c :: acc)
    else if acc.isEmpty then wordsAux cs [] else String.mk acc.reverse :: wordsAux cs []

/-- Model of PostgreSQL `to_tsvector('english', s)`: the list of lowercase
word tokens of `s` (stemming/stop-words simplified away). -/
def to_tsvector (s : String) : List String :=
  wordsAux (lowerStr s) []

/-- Model of PostgreSQL `plainto_tsquery('english', s)`: the conjunction of
the lowercase word tokens of `s`, represented as the token list. -/
def plainto_tsquery (s : String) : List String :=
  wordsAux (lowerStr s) []

/-- Model of the PostgreSQL `@@` operator: every token of the query occurs
in the vector; the empty query (e.g. from an all-punctuation input) matches
nothing, as in PostgreSQL. -/
def tsMatch (v q : List String) : Bool :=
  !q.isEmpty && q.all (fun t => v.contains t)

/-- Model of `ts_rank_cd`: zero whenever the query does not match the
vector (as in PostgreSQL), otherwise a positive occurrence-count score.
The claims under study depend only on "no match scores zero" and on the
score being a fixed function of vector and query. -/
def ts_rank_cd (v q : List String) : Nat :=
  if tsMatch v q then (q.map (fun t => v.count t)).sum else 0

/-- The `SourceApp` enumeration of `app/schemas.py`. -/
inductive SourceApp where
  | crm | helpdesk | analytics | social | jobs | cloud | finance | legal
  | research | productivity
  deriving DecidableEq, Repr

/-- String value of a `SourceApp` member, as in `app/schemas.py`. -/
def SourceApp.value : SourceApp → String
  | .crm => "crm" | .helpdesk => "helpdesk" | .analytics => "analytics"
  | .social => "social" | .jobs => "jobs" | .cloud => "cloud"
  | .finance => "finance" | .legal => "legal" | .research => "research"
  | .productivity => "productivity"

/-- The `SourceType` enumeration of `app/schemas.py`. -/
inductive SourceType where
  | contact | deal | ticket | article | post | job | transaction | contract
  | task | source
  deriving DecidableEq, Repr

/-- String value of a `SourceType` member, as in `app/schemas.py`. -/
def SourceType.value : SourceType → String
  | .contact => "contact" | .deal => "deal" | .ticket => "ticket"
  | .article => "article" | .post => "post" | .job => "job"
  | .transaction => "transaction" | .contract => "contract"
  | .task => "task" | .source => "source"

/-- Pydantic enum validation for `source_app` (`SourceApp(str, Enum)`). -/
def parseSourceApp (s : String) : Option SourceApp :=
  if s = "crm" then some .crm else if s = "helpdesk" then some .helpdesk
  else if s = "analytics" then some .analytics else if s = "social" then some .social
  else if s = "jobs" then some .jobs else if s = "cloud" then some .cloud
  else if s = "finance" then some .finance else if s = "legal" then some .legal
  else if s = "research" then some .research else if s = "productivity" then some .productivity
  else none

/-- Pydantic enum validation for `source_type` (`SourceType(str, Enum)`). -/
def parseSourceType (s : String) : Option SourceType :=
  if s = "contact" then some .contact else if s = "deal" then some .deal
  else if s = "ticket" then some .ticket else if s = "article" then some .article
  else if s = "post" then some .post else if s = "job" then some .job
  else if s = "transaction" then some .transaction else if s = "contract" then some .contract
  else if s = "task" then some .task else if s = "source" then some .source
  else none

/-- A validated `IndexCreate` payload (`app/schemas.py`). -/
structure IndexCreate where
  name : String
  source_app : SourceApp
  source_type : SourceType
  record_id : String
  title : String
  content : Option String := none
  tags : Option (List String) := none
  url : Option String := none
  deriving DecidableEq, Repr

/-- A raw, not yet validated submission item: `source_app`/`source_type`
arrive as strings and are checked against the enumerations by pydantic
before any route handler runs. -/
structure RawIndexItem where
  name : String
  source_app : String
  source_type : String
  record_id : String
  title : String
  content : Option String := none
  tags : Option (List String) := none
  url : Option String := none
  deriving DecidableEq, Repr

/-- Request-body validation of one item: enum membership plus the
`max_length` bounds of `IndexCreate` in `app/schemas.py`. -/
def parseIndexItem (x : RawIndexItem) : Option IndexCreate :=
  match parseSourceApp x.source_app, parseSourceType x.source_type with
  | some a, some t =>
    if x.name.length ≤ 500 && x.record_id.length ≤ 255 && x.title.length ≤ 1000
        && (x.url.getD "").length ≤ 2000 then
      some { name := x.name, source_app := a, source_type := t,
             record_id := x.record_id, title := x.title, content := x.content,
             tags := x.tags, url := x.url }
    else none
  | _, _ => none

/-- Pydantic validation of a whole `BulkIndexRequest` body: any invalid
item rejects the entire request (HTTP 422) before `bulk_index` runs. -/
def parseBulkRequest : List RawIndexItem → Except String (List IndexCreate)
  | [] => .ok []
  | x :: xs =>
    match parseIndexItem x with
    | none => .error "validation error"
    | some it =>
      match parseBulkRequest xs with
      | .error e => .error e
      | .ok its => .ok (it :: its)

/-- A row of the `indexes` table (`app/models.py`), the `search_vector`
column included. Timestamps are microsecond counts. -/
structure IndexRecord where
  id : Nat
  name : String
  source_app : String
  source_type : String
  record_id : String
  title : String
  content : Option String
  tags : Option (List String)
  url : Option String
  last_synced : Nat
  created_at : Nat
  updated_at : Nat
  search_vector : List String
  deriving DecidableEq, Repr

/-- A row of the `search_log` table (`app/models.py`), holding the parsed
filters the handler stores under the `"app"` and `"type"` keys. -/
structure SearchLogEntry where
  query : String
  filters_app : Option (List String)
  filters_type : Option (List String)
  results_count : Nat
  user : Option String
  deriving DecidableEq, Repr

/-- The durable state: `indexes` rows, the serial-id counter, and the
append-only `search_log`. -/
structure Store where
  records : List IndexRecord
  nextId : Nat
  logs : List SearchLogEntry
  deriving DecidableEq, Repr

/-- The empty store. -/
def emptyStore : Store :=
  { records := [], nextId := 1, logs := [] }

/-- The search-vector expression of the trigger function
`searchpro_update_search_vector` in `app/main.py`: tsvector of the five
coalesced fields joined by single spaces. -/
def computeSearchVector (name title : String) (content : Option String)
    (source_app source_type : String) : List String :=
  to_tsvector (name ++ " " ++ title ++ " " ++ content.getD "" ++ " "
    ++ source_app ++ " " ++ source_type)

/-- The BEFORE INSERT OR UPDATE trigger `trg_indexes_search_vector`:
rewrite `search_vector` from the row's current fields. -/
def applySearchVectorTrigger (r : IndexRecord) : IndexRecord :=
  { r with search_vector :=
      computeSearchVector r.name r.title r.content r.source_app r.source_type }

/-- `now.replace(microsecond=0)`: truncate a microsecond timestamp to a
whole second. -/
def truncSecond (t : Nat) : Nat :=
  t / 1000000 * 1000000

/-- The natural-key predicate of the unique constraint
`uq_indexes_source_record`: row matches the item's `(source_app,
record_id)`. -/
def keyB (item : IndexCreate) (r : IndexRecord) : Bool :=
  r.source_app == item.source_app.value && r.record_id == item.record_id

/-- The row built by the INSERT arm of `_upsert_index`, with the
search-vector trigger applied. -/
def newRecordOf (item : IndexCreate) (now id : Nat) : IndexRecord :=
  applySearchVectorTrigger
    { id := id, name := item.name, source_app := item.source_app.value,
      source_type := item.source_type.value, record_id := item.record_id,
      title := item.title, content := item.content, tags := item.tags,
      url := item.url, last_synced := now, created_at := now,
      updated_at := now, search_vector := [] }

/-- The row produced by the `on_conflict_do_update` arm of `_upsert_index`:
the `set_` columns (`name`, `source_type`, `title`, `content`, `tags`,
`url`, `last_synced`, `updated_at`) replaced, everything else kept, and the
search-vector trigger applied. -/
def updateRecordOf (item : IndexCreate) (now : Nat) (r : IndexRecord) : IndexRecord :=
  applySearchVectorTrigger
    { r with
      name := item.name, source_type := item.source_type.value,
      title := item.title, content := item.content, tags := item.tags,
      url := item.url, last_synced := now, updated_at := now }

/-- `_upsert_index` of `app/routers/indexes.py`: conditional
insert-or-update on the natural key, returning the new store, the
resulting row, and the `created` flag the code computes as
`row.created_at >= now.replace(microsecond=0)`. -/
def upsert_index (db : Store) (item : IndexCreate) (now : Nat) :
    Store × IndexRecord × Bool :=
  match db.records.find? (keyB item) with
  | none =>
    let row := newRecordOf item now db.nextId
    ({ db with records := db.records ++ [row], nextId := db.nextId + 1 },
     row, decide (truncSecond now ≤ row.created_at))
  | some old =>
    let row := updateRecordOf item now old
    ({ db with records :=
        db.records.map (fun r => if keyB item r then updateRecordOf item now r else r) },
     row, decide (truncSecond now ≤ row.created_at))

/-- A key is present in the store. -/
def hasKey (db : Store) (source_app record_id : String) : Bool :=
  db.records.any (fun r => r.source_app == source_app && r.record_id == record_id)

/-- The per-item error description built by `bulk_index`:
`f"{item.source_app}:{item.record_id} – {exc}"` (the `(str, Enum)` member
rendering as its string value). -/
def bulkErrorOf (item : IndexCreate) (msg : String) : String :=
  item.source_app.value ++ ":" ++ item.record_id ++ " – " ++ msg

/-- The single SQLAlchemy session the whole `bulk_index` loop runs on:
`pending` is the store as seen inside the still-open transaction
(`db.execute`/`db.flush` writes are visible to later statements but not
yet durable), `aborted` marks a transaction that a failed statement has
put into the must-rollback state. -/
structure BulkSession where
  pending : Store
  aborted : Bool
  deriving DecidableEq, Repr

/-- Stands for the message of the `PendingRollbackError` that SQLAlchemy
raises from every statement issued on a session whose transaction a
previous statement aborted (the exact wording is version-dependent). -/
def pendingRollbackMsg : String :=
  "PendingRollbackError"

/-- The loop of `bulk_index` in `app/routers/indexes.py`, started at loop
index `i`, on the shared session `s`. Each item is upserted inside a
`try`: while the transaction is healthy, the oracle `exc` says whether the
item's upsert raises a database error (with which message); a raised error
leaves no write and aborts the shared transaction, after which every
subsequent item's `db.execute` raises `PendingRollbackError` immediately —
caught by the same `except` and recorded as that item's error. `nowAt`
gives the wall-clock reading of each item's upsert. Returns
`(session, created, updated, errors)`. -/
def bulkIndexAux (nowAt : Nat → Nat) (exc : Nat → Option String) :
    Nat → BulkSession → List IndexCreate → BulkSession × Nat × Nat × List String
  | _, s, [] => (s, 0, 0, [])
  | i, s, item :: rest =>
    if s.aborted then
      let t := bulkIndexAux nowAt exc (i + 1) s rest
      (t.1, t.2.1, t.2.2.1, bulkErrorOf item pendingRollbackMsg :: t.2.2.2)
    else
      match exc i with
      | some msg =>
        let t := bulkIndexAux nowAt exc (i + 1) { s with aborted := true } rest
        (t.1, t.2.1, t.2.2.1, bulkErrorOf item msg :: t.2.2.2)
      | none =>
        let u := upsert_index s.pending item (nowAt i)
        let t := bulkIndexAux nowAt exc (i + 1) { s with pending := u.1 } rest
        if u.2.2 then (t.1, t.2.1 + 1, t.2.2.1, t.2.2.2)
        else (t.1, t.2.1, t.2.2.1 + 1, t.2.2.2)

/-- `bulk_index` of `app/routers/indexes.py` for a validated batch: run
the loop on one fresh transaction, then the single `db.commit()`. When
some statement aborted the transaction, the commit itself raises
`PendingRollbackError` — uncaught, so no accumulators are returned (HTTP
500) — and the rollback discards every pending write of the batch: the
durable store is the one from before the call. Otherwise the commit makes
all pending writes durable and the accumulators are returned. The result
pairs the durable store with the response. -/
def bulk_index (db : Store) (items : List IndexCreate) (nowAt : Nat → Nat)
    (exc : Nat → Option String) : Store × Except String (Nat × Nat × List String) :=
  if (bulkIndexAux nowAt exc 0 { pending := db, aborted := false } items).1.aborted then
    (db, .error pendingRollbackMsg)
  else
    ((bulkIndexAux nowAt exc 0 { pending := db, aborted := false } items).1.pending,
     .ok ((bulkIndexAux nowAt exc 0 { pending := db, aborted := false } items).2.1,
       (bulkIndexAux nowAt exc 0 { pending := db, aborted := false } items).2.2.1,
       (bulkIndexAux nowAt exc 0 { pending := db, aborted := false } items).2.2.2))

/-- The `POST /indexes/bulk` endpoint as reached by a raw request body:
pydantic validates the whole body first (rejecting the entire batch when
any item is invalid, with no handler invocation and no write), then
`bulk_index` runs. The result pairs the durable store with the response. -/
def bulkEndpoint (db : Store) (raw : List RawIndexItem) (nowAt : Nat → Nat)
    (exc : Nat → Option String) : Store × Except String (Nat × Nat × List String) :=
  match parseBulkRequest raw with
  | .error e => (db, .error e)
  | .ok items => bulk_index db items nowAt exc

/-- Lexicographic `≤` on character lists, the model of the collation used
by `ORDER BY title`. -/
def lexLe : List Char → List Char → Bool
  | [], _ => true
  | _ :: _, [] => false
  | a :: as, b :: bs => if a = b then lexLe as bs else decide (a < b)

/-- Lexicographic `≤` on strings. -/
def titleLe (a b : String) : Bool :=
  lexLe a.data b.data

/-- A search row: the record together with its `ts_rank_cd` column. -/
abbrev RankedRow := IndexRecord × Nat

/-- The `ORDER BY desc("rank"), Index.title` sort key of `unified_search`:
higher rank first, ties by title ascending. -/
def rankOrder (a b : RankedRow) : Prop :=
  (if a.2 = b.2 then titleLe a.1.title b.1.title else decide (b.2 < a.2)) = true

instance : DecidableRel rankOrder := fun a b => by
  unfold rankOrder; infer_instance

/-- `apps = [a.strip() for a in app.split(",")] if app else None` of
`unified_search`: `None` and the empty string give no filter, otherwise
split on commas and strip each part. -/
def parseFilterCSV : Option String → Option (List String)
  | none => none
  | some s => if s = "" then none else some ((s.splitOn ",").map String.trim)

/-- The `ILIKE`-based fallback disjunct of `unified_search`:
`Index.title.ilike(f"%{q}%")`. -/
def titleFallback (q : String) (r : IndexRecord) : Bool :=
  ilikeB r.title ("%" ++ q ++ "%")

/-- The `or_` filter of `unified_search`: full-text match against the
search vector, or the `ILIKE` title fallback. -/
def matchesQuery (q : String) (r : IndexRecord) : Bool :=
  tsMatch r.search_vector (plainto_tsquery q) || titleFallback q r

/-- The optional `source_app.in_` / `source_type.in_` filters of
`unified_search`. -/
def passesFilters (apps types : Option (List String)) (r : IndexRecord) : Bool :=
  (match apps with | none => true | some l => l.contains r.source_app)
    && (match types with | none => true | some l => l.contains r.source_type)

/-- The matching rows of a search before ranking and pagination (the rows
counted by `base_q.count()`). -/
def matchedRows (db : Store) (q : String) (apps types : Option (List String)) :
    List IndexRecord :=
  db.records.filter (fun r => matchesQuery q r && passesFilters apps types r)

/-- The matching rows paired with their rank column and sorted by
`desc("rank"), Index.title` — the full ranked result list before
`offset`/`limit`. -/
def rankedRows (db : Store) (q : String) (apps types : Option (List String)) :
    List RankedRow :=
  List.insertionSort rankOrder
    ((matchedRows db q apps types).map
      (fun r => (r, ts_rank_cd r.search_vector (plainto_tsquery q))))

/-- One item of the search response: every `IndexRecord` column except
`search_vector`, plus the computed `rank` (`float(rank) if rank else 0.0`;
a zero score stays zero). -/
structure SearchResult where
  id : Nat
  name : String
  source_app : String
  source_type : String
  record_id : String
  title : String
  content : Option String
  tags : Option (List String)
  url : Option String
  last_synced : Nat
  created_at : Nat
  updated_at : Nat
  rank : Nat
  deriving DecidableEq, Repr

/-- Build a `SearchResult` from a ranked row. -/
def toSearchResult (p : RankedRow) : SearchResult :=
  { id := p.1.id, name := p.1.name, source_app := p.1.source_app,
    source_type := p.1.source_type, record_id := p.1.record_id,
    title := p.1.title, content := p.1.content, tags := p.1.tags,
    url := p.1.url, last_synced := p.1.last_synced,
    created_at := p.1.created_at, updated_at := p.1.updated_at,
    rank := p.2 }

/-- The body of the `GET /search` response. -/
structure SearchResponse where
  query : String
  total : Nat
  limit : Nat
  offset : Nat
  results : List SearchResult
  deriving DecidableEq, Repr

/-- The pure computation of `unified_search` in `app/routers/search.py`
up to (and excluding) the search-log write: parse filters, match, count
before pagination, rank, paginate. -/
def unifiedSearchCore (db : Store) (q : String) (app typ : Option String)
    (limit offset : Nat) : SearchResponse :=
  let apps := parseFilterCSV app
  let types := parseFilterCSV typ
  { query := q, total := (matchedRows db q apps types).length,
    limit := limit, offset := offset,
    results := (((rankedRows db q apps types).drop offset).take limit).map toSearchResult }

/-- `unified_search` with its side effect: after computing the response it
adds one `SearchLog` row and commits; `logOk` models whether that commit
succeeds. The code has no handler around the commit, so on failure the
exception propagates and no response is produced. -/
def unified_search (db : Store) (q : String) (app typ : Option String)
    (limit offset : Nat) (user : Option String) (logOk : Bool) :
    Except Unit (SearchResponse × Store) :=
  let resp := unifiedSearchCore db q app typ limit offset
  let entry : SearchLogEntry :=
    { query := q, filters_app := parseFilterCSV app,
      filters_type := parseFilterCSV typ, results_count := resp.total,
      user := user }
  if logOk then .ok (resp, { db with logs := db.logs ++ [entry] }) else .error ()

/-- `search_suggestions` in `app/routers/search.py`: distinct titles whose
text `ILIKE`-matches `%q%`, ordered by title, limited. -/
def search_suggestions (db : Store) (q : String) (limit : Nat) : List String :=
  (List.insertionSort (fun a b => titleLe a b = true)
    ((db.records.filter (fun r => titleFallback q r)).map (fun r => r.title)).dedup).take limit

/-! ### Helper lemmas about the `LIKE` matcher -/

/-- Pointwise-equal predicates give equal `List.any`. -/
theorem anyCongr {α : Type} {p q : α → Bool} :
    ∀ {l : List α}, (∀ a ∈ l, p a = q a) → l.any p = l.any q
  | [], _ => rfl
  | a :: l, h => by
    simp only [List.any_cons, h a (List.mem_cons_self a l),
      anyCongr (fun b hb => h b (List.mem_cons_of_mem a hb))]

/-- A lone `%` pattern matches every string. -/
theorem likeMatch_percent (s : List Char) : likeMatch ['%'] s = true := by
  induction s with
  | nil => decide
  | cons c cs ih =>
    simp only [likeMatch, if_pos rfl, List.tails_cons, List.any_cons] at ih ⊢
    simp [ih]

/-- Unfolding of the matcher at a leading `%`: try every suffix. -/
theorem likeMatch_percent_cons (ps : List Char) (s : List Char) :
    likeMatch ('%' :: ps) s = s.tails.any (fun t => likeMatch ps t) := by
  rw [likeMatch.eq_def]
  simp

/-- For a metacharacter-free core `qs`, the pattern `qs ++ ['%']` matches
exactly the strings with `qs` as a prefix. -/
theorem likeMatch_plain_percent {qs : List Char} (h : noMeta qs = true) :
    ∀ t : List Char, likeMatch (qs ++ ['%']) t = prefixB qs t := by
  induction qs with
  | nil => intro t; simpa [prefixB] using likeMatch_percent t
  | cons c cs ih =>
    intro t
    simp only [noMeta, List.all_cons, Bool.and_eq_true, Bool.not_eq_true',
      Bool.or_eq_false_iff, beq_eq_false_iff_ne, ne_eq] at h
    obtain ⟨⟨⟨hc1, hc2⟩, hc3⟩, hrest⟩ := h
    have hcs : noMeta cs = true := by
      simp only [noMeta, List.all_eq_true, Bool.not_eq_true', Bool.or_eq_false_iff,
        beq_eq_false_iff_ne, ne_eq]
      intro a ha
      have := List.all_eq_true.mp hrest a ha
      simpa [Bool.not_eq_true', Bool.or_eq_false_iff] using this
    cases t with
    | nil =>
      rw [List.cons_append, likeMatch.eq_def]
      simp [prefixB, hc1, hc3]
    | cons d ds =>
      rw [List.cons_append, likeMatch.eq_def]
      simp only [if_neg hc1, if_neg hc3, prefixB, ih hcs ds]
      simp [hc2]

/-- `subListOf` scans exactly the suffixes for a prefix match. -/
theorem subListOf_eq_any_tails (qs : List Char) :
    ∀ s : List Char, subListOf qs s = s.tails.any (fun t => prefixB qs t) := by
  intro s
  induction s with
  | nil => simp [subListOf, List.tails]
  | cons c cs ih => simp [subListOf, List.tails_cons, ih]

/-- Main `LIKE` lemma: for a metacharacter-free `qs`, the pattern
`%qs%` matches exactly the strings containing `qs` contiguously. -/
theorem likeMatch_sandwich {qs : List Char} (h : noMeta qs = true)
    (s : List Char) :
    likeMatch ('%' :: (qs ++ ['%'])) s = subListOf qs s := by
  rw [likeMatch_percent_cons, subListOf_eq_any_tails]
  exact anyCongr (fun t _ => likeMatch_plain_percent h t)

/-- Appending strings concatenates their character data. -/
theorem dataAppend (a b : String) : (a ++ b).data = a.data ++ b.data := rfl

/-- Lowering distributes over the `%`-sandwich the code builds with
`f"%{q}%"`. -/
theorem lowerStr_sandwich (q : String) :
    lowerStr ("%" ++ q ++ "%") = '%' :: (lowerStr q ++ ['%']) := by
  have h1 : Char.toLower '%' = '%' := by decide
  simp [lowerStr, dataAppend, List.map_append, h1]

/-- The `ILIKE` fallback the code runs coincides, for metacharacter-free
queries, with the spec's case-insensitive substring containment. -/
theorem ilike_sandwich_eq_containsCI {q : String} (h : noMeta (lowerStr q) = true)
    (title : String) :
    ilikeB title ("%" ++ q ++ "%") = containsCI title q := by
  rw [ilikeB, containsCI, lowerStr_sandwich, likeMatch_sandwich h]

/-! ### The sort order of `unified_search` is total and transitive -/

/-- Lexicographic `≤` on character lists is total. -/
theorem lexLe_total : ∀ a b : List Char, lexLe a b = true ∨ lexLe b a = true
  | [], _ => Or.inl rfl
  | _ :: _, [] => Or.inr rfl
  | a :: as, b :: bs => by
    by_cases h : a = b
    · subst h
      simpa [lexLe] using lexLe_total as bs
    · rcases lt_or_gt_of_ne h with hlt | hgt
      · left; simp [lexLe, h, hlt]
      · right; simp [lexLe, Ne.symm h, hgt]

/-- Lexicographic `≤` on character lists is transitive. -/
theorem lexLe_trans : ∀ a b c : List Char,
    lexLe a b = true → lexLe b c = true → lexLe a c = true
  | [], _, _, _, _ => rfl
  | _ :: _, [], _, h1, _ => by simp [lexLe] at h1
  | _ :: _, _ :: _, [], _, h2 => by simp [lexLe] at h2
  | a :: as, b :: bs, c :: cs, h1, h2 => by
    by_cases hab : a = b <;> by_cases hbc : b = c
    · subst hab; subst hbc
      simp only [lexLe, if_pos rfl] at h1 h2 ⊢
      exact lexLe_trans as bs cs h1 h2
    · subst hab
      simp only [lexLe, if_pos rfl, if_neg hbc, decide_eq_true_eq] at h2
      simp [lexLe, hbc, h2]
    · subst hbc
      simp only [lexLe, if_neg hab, decide_eq_true_eq] at h1
      simp [lexLe, hab, h1]
    · simp only [lexLe, if_neg hab, if_neg hbc, decide_eq_true_eq] at h1 h2
      have hac : a < c := lt_trans h1 h2
      simp [lexLe, ne_of_lt hac, hac]

instance : IsTotal RankedRow rankOrder := by
  constructor
  intro a b
  unfold rankOrder
  by_cases h : a.2 = b.2
  · simp only [if_pos h, if_pos h.symm, titleLe]
    exact lexLe_total a.1.title.data b.1.title.data
  · rcases Nat.lt_or_ge a.2 b.2 with hlt | hge
    · right; simp [Ne.symm h, hlt]
    · left
      have : b.2 < a.2 := Nat.lt_of_le_of_ne hge (fun e => h e.symm)
      simp [h, this]

instance : IsTrans RankedRow rankOrder := by
  constructor
  intro a b c h1 h2
  unfold rankOrder at h1 h2 ⊢
  by_cases hab : a.2 = b.2 <;> by_cases hbc : b.2 = c.2
  · simp only [if_pos hab, titleLe] at h1
    simp only [if_pos hbc, titleLe] at h2
    simp only [if_pos (hab.trans hbc), titleLe]
    exact lexLe_trans _ _ _ h1 h2
  · simp only [if_neg hbc, decide_eq_true_eq] at h2
    have hlt : c.2 < a.2 := by omega
    have hne : ¬a.2 = c.2 := by omega
    simp [hne, hlt]
  · simp only [if_neg hab, decide_eq_true_eq] at h1
    have hlt : c.2 < a.2 := by omega
    have hne : ¬a.2 = c.2 := by omega
    simp [hne, hlt]
  · simp only [if_neg hab, if_neg hbc, decide_eq_true_eq] at h1 h2
    have hlt : c.2 < a.2 := Nat.lt_trans h2 h1
    simp [Ne.symm (Nat.ne_of_lt hlt), hlt]

/-! ### Claims C1 and C5: the `created` flag heuristic -/

/-- Concrete item used to exercise the `created`-flag heuristic. -/
def itC1 : IndexCreate :=
  { name := "n", source_app := .crm, source_type := .contact,
    record_id := "r-1", title := "Acme Renewal" }

/-- Store after first ingesting `itC1` at t = 1.0 s. -/
def dbC1 : Store := (upsert_index emptyStore itC1 1000000).1

/-- C1: the claim says the `created` flag is true iff no row with the
natural key existed before the call. The code computes it as
`row.created_at >= now.replace(microsecond=0)`, so a second upsert of the
same key within the same wall-clock second (here t = 1.5 s after an
insert at t = 1.0 s) reports `created = true` although the row already
existed: the code contradicts the claim (and its own comment that
"created_at equals last_synced only on fresh insert"). -/
theorem c1_created_flag_code_bug :
    hasKey dbC1 "crm" "r-1" = true ∧
    (upsert_index dbC1 itC1 1500000).2.2 = true := by decide

/-- Concrete item used to exercise idempotent re-upsert. -/
def itC5 : IndexCreate :=
  { name := "n5", source_app := .helpdesk, source_type := .ticket,
    record_id := "r-5", title := "Hello", content := some "c",
    tags := some ["x"], url := some "u" }

/-- Store after first ingesting `itC5` at t = 2.0 s. -/
def dbC5 : Store := (upsert_index emptyStore itC5 2000000).1

/-- C5: re-upserting the identical item does leave every stored field
unchanged except `last_synced`/`updated_at`, but when the second call
falls in the same wall-clock second (here t = 2.999999 s after an insert
at t = 2.0 s) it returns `created = true`, not the `created = false` the
claim requires: the timestamp heuristic breaks idempotency's observable
flag. -/
theorem c5_idempotent_second_call_code_bug :
    (upsert_index dbC5 itC5 2999999).2.2 = true ∧
    (upsert_index dbC5 itC5 2999999).1.records =
      dbC5.records.map (fun r => { r with last_synced := 2999999, updated_at := 2999999 }) := by
  decide

/-! ### Claim C2: the search vector is never stale -/

/-- A row's stored `search_vector` agrees with the trigger expression over
its current field values. -/
def svConsistent (r : IndexRecord) : Bool :=
  decide (r.search_vector =
    computeSearchVector r.name r.title r.content r.source_app r.source_type)

/-- Applying the trigger makes a row consistent, whatever it held before. -/
theorem svConsistent_trigger (r : IndexRecord) :
    svConsistent (applySearchVectorTrigger r) = true := by
  simp [svConsistent, applySearchVectorTrigger]

/-- C2: after every insert or update performed by the upsert path, every
stored row's `search_vector` equals the trigger expression over the row's
current `name`, `title`, `content`, `source_app`, `source_type` — the
derived representation is never stale after a successful write. -/
theorem c2_search_vector_never_stale (db : Store) (item : IndexCreate) (now : Nat)
    (h : db.records.all svConsistent = true) :
    ((upsert_index db item now).1.records).all svConsistent = true := by
  rw [List.all_eq_true] at h ⊢
  intro r hr
  unfold upsert_index at hr
  cases hf : db.records.find? (keyB item) <;> rw [hf] at hr <;> simp only at hr
  · rcases List.mem_append.mp hr with hm | hm
    · exact h r hm
    · rcases List.mem_singleton.mp hm with rfl
      exact svConsistent_trigger _
  · rcases List.mem_map.mp hr with ⟨r0, hr0, rfl⟩
    by_cases hk : keyB item r0
    · simp only [if_pos hk, updateRecordOf]
      exact svConsistent_trigger _
    · simp only [if_neg hk]
      exact h r0 hr0

/-- Second concrete item (same store) for the C2 witness. -/
def itC2 : IndexCreate :=
  { name := "w", source_app := .finance, source_type := .transaction,
    record_id := "f-9", title := "Invoice 9", content := some "paid" }

/-- Witness for C2 at a concrete store holding one consistent row. -/
theorem c2_search_vector_never_stale_witness :
    dbC1.records.all svConsistent = true ∧
    ((upsert_index dbC1 itC2 3000000).1.records).all svConsistent = true :=
  ⟨by decide, c2_search_vector_never_stale dbC1 itC2 3000000 (by decide)⟩

/-! ### Claim C9: the update arm's frame -/

/-- C9: when a row with the item's natural key already exists, the upsert
updates in place: the store keeps its rows (in position), rows with other
keys are untouched, and for the matched row the `set_` columns `name`,
`title`, `content`, `tags`, `url`, `source_type`, `last_synced`,
`updated_at` take the submitted values (the last two the call's `now`)
while `created_at` and the natural key `source_app`/`record_id` are left
unchanged. -/
theorem c9_update_in_place_frame (db : Store) (item : IndexCreate) (now : Nat)
    (h : (db.records.find? (keyB item)).isSome = true) :
    (upsert_index db item now).1.records.length = db.records.length
    ∧ (∀ (i : Nat) (r : IndexRecord), db.records[i]? = some r → keyB item r = false →
        (upsert_index db item now).1.records[i]? = some r)
    ∧ (∀ (i : Nat) (r r2 : IndexRecord), db.records[i]? = some r → keyB item r = true →
        (upsert_index db item now).1.records[i]? = some r2 →
        r2.created_at = r.created_at ∧ r2.source_app = r.source_app
        ∧ r2.record_id = r.record_id ∧ r2.name = item.name
        ∧ r2.title = item.title ∧ r2.content = item.content
        ∧ r2.tags = item.tags ∧ r2.url = item.url
        ∧ r2.source_type = item.source_type.value
        ∧ r2.last_synced = now ∧ r2.updated_at = now) := by
  obtain ⟨old, hf⟩ := Option.isSome_iff_exists.mp h
  have hrec : (upsert_index db item now).1.records =
      db.records.map (fun r => if keyB item r then updateRecordOf item now r else r) := by
    unfold upsert_index
    rw [hf]
  refine ⟨by rw [hrec]; exact List.length_map .., ?_, ?_⟩
  · intro i r hi hk
    rw [hrec, List.getElem?_map, hi, Option.map_some', if_neg (by simp [hk])]
  · intro i r r2 hi hk h2
    rw [hrec, List.getElem?_map, hi, Option.map_some', if_pos hk] at h2
    cases Option.some_injective _ h2
    simp [updateRecordOf, applySearchVectorTrigger]

/-- First item for the C9 witness store (key `crm:a-1`). -/
def itC9a : IndexCreate :=
  { name := "a", source_app := .crm, source_type := .deal,
    record_id := "a-1", title := "Deal A" }

/-- Second item for the C9 witness store (key `legal:b-2`). -/
def itC9b : IndexCreate :=
  { name := "b", source_app := .legal, source_type := .contract,
    record_id := "b-2", title := "Contract B" }

/-- Witness store: two rows with distinct natural keys. -/
def dbC9 : Store :=
  (upsert_index (upsert_index emptyStore itC9a 1000000).1 itC9b 2000000).1

/-- The row of `dbC9` holding the key `legal:b-2`. -/
def recC9b : IndexRecord :=
  (upsert_index (upsert_index emptyStore itC9a 1000000).1 itC9b 2000000).2.1

/-- Witness for C9: re-upserting `itC9a` leaves the row with the other
natural key exactly in place. -/
theorem c9_update_in_place_frame_witness :
    (dbC9.records.find? (keyB itC9a)).isSome = true
    ∧ dbC9.records[1]? = some recC9b
    ∧ keyB itC9a recC9b = false
    ∧ (upsert_index dbC9 itC9a 7000000).1.records[1]? = some recC9b :=
  ⟨by decide, by decide, by decide,
    (c9_update_in_place_frame dbC9 itC9a 7000000 (by decide)).2.1 1 recC9b
      (by decide) (by decide)⟩

/-! ### Claim C4: the matching rule -/

/-- Record used by the C4 counterexample: its title holds no percent sign
and its stored search vector is the trigger value. -/
def recC4 : IndexRecord :=
  (upsert_index emptyStore itC1 1000000).2.1

/-- Store holding exactly `recC4`. -/
def dbC4 : Store :=
  (upsert_index emptyStore itC1 1000000).1

/-- C4 counterexample: for `q = "%"` the record is in the pre-pagination
result set although its search vector does not satisfy the parsed
full-text query and its title does not contain `"%"` as a case-insensitive
substring — the claimed "if and only if" fails because the code
interpolates `q` into an `ILIKE` pattern where `%` is a wildcard. -/
theorem c4_matching_rule_counterexample :
    matchedRows dbC4 "%" none none = [recC4]
    ∧ tsMatch recC4.search_vector (plainto_tsquery "%") = false
    ∧ containsCI recC4.title "%" = false := by decide

/-- C4 (amended): a record is in the pre-pagination result set iff it is
stored, its search vector satisfies the parsed full-text query for `q` OR
its title matches the `ILIKE` pattern `%q%`, and it passes the app/type
filters; membership in the ranked list agrees with membership in the
matched set; and whenever `q` contains no `LIKE` metacharacter the
`ILIKE` fallback coincides with case-insensitive substring containment,
recovering the original wording. -/
theorem c4_matching_rule_amended (db : Store) (q : String)
    (app typ : Option String) (r : IndexRecord) :
    (r ∈ matchedRows db q (parseFilterCSV app) (parseFilterCSV typ) ↔
      r ∈ db.records
      ∧ (tsMatch r.search_vector (plainto_tsquery q) = true ∨ titleFallback q r = true)
      ∧ passesFilters (parseFilterCSV app) (parseFilterCSV typ) r = true)
    ∧ (r ∈ (rankedRows db q (parseFilterCSV app) (parseFilterCSV typ)).map Prod.fst ↔
        r ∈ matchedRows db q (parseFilterCSV app) (parseFilterCSV typ))
    ∧ (noMeta (lowerStr q) = true → titleFallback q r = containsCI r.title q) := by
  refine ⟨?_, ?_, ?_⟩
  · simp [matchedRows, List.mem_filter, matchesQuery, Bool.or_eq_true, and_assoc]
  · have hperm : List.Perm
        ((rankedRows db q (parseFilterCSV app) (parseFilterCSV typ)).map Prod.fst)
        (matchedRows db q (parseFilterCSV app) (parseFilterCSV typ)) := by
      have h1 := List.perm_insertionSort rankOrder
        ((matchedRows db q (parseFilterCSV app) (parseFilterCSV typ)).map
          (fun r => (r, ts_rank_cd r.search_vector (plainto_tsquery q))))
      have h2 := h1.map Prod.fst
      have h3 : (Prod.fst ∘ fun r : IndexRecord =>
          (r, ts_rank_cd r.search_vector (plainto_tsquery q))) = id := rfl
      simpa [rankedRows, List.map_map, h3] using h2
    exact hperm.mem_iff
  · intro h
    exact ilike_sandwich_eq_containsCI h r.title

/-- Witness for C4's amended claim at the metacharacter-free query
`"hello"`. -/
theorem c4_matching_rule_amended_witness :
    noMeta (lowerStr "hello") = true
    ∧ titleFallback "hello" recC4 = containsCI recC4.title "hello" :=
  ⟨by decide, (c4_matching_rule_amended dbC4 "hello" none none recC4).2.2 (by decide)⟩

/-! ### Claim C6: ranking order -/

/-- C6: the pre-pagination ranked list is a permutation of the matched
rows (each paired with its `ts_rank_cd` score) and is sorted by score
descending with ties broken by title ascending; the returned page is a
contiguous slice of it; and a row whose search vector does not satisfy the
full-text query — one matched only via the title fallback — carries score
0 and is reported with `rank` 0. -/
theorem c6_ranking_order (db : Store) (q : String) (app typ : Option String)
    (limit offset : Nat) :
    List.Sorted rankOrder (rankedRows db q (parseFilterCSV app) (parseFilterCSV typ))
    ∧ List.Perm (rankedRows db q (parseFilterCSV app) (parseFilterCSV typ))
        ((matchedRows db q (parseFilterCSV app) (parseFilterCSV typ)).map
          (fun r => (r, ts_rank_cd r.search_vector (plainto_tsquery q))))
    ∧ (unifiedSearchCore db q app typ limit offset).results =
        (((rankedRows db q (parseFilterCSV app) (parseFilterCSV typ)).drop offset).take
          limit).map toSearchResult
    ∧ (∀ p ∈ rankedRows db q (parseFilterCSV app) (parseFilterCSV typ),
        tsMatch p.1.search_vector (plainto_tsquery q) = false →
        p.2 = 0 ∧ (toSearchResult p).rank = 0) := by
  refine ⟨List.sorted_insertionSort rankOrder _, List.perm_insertionSort rankOrder _,
    rfl, ?_⟩
  intro p hp hts
  have hp2 : p ∈ (matchedRows db q (parseFilterCSV app) (parseFilterCSV typ)).map
      (fun r => (r, ts_rank_cd r.search_vector (plainto_tsquery q))) :=
    (List.perm_insertionSort rankOrder _).mem_iff.mp hp
  rcases List.mem_map.mp hp2 with ⟨r0, _, rfl⟩
  have : ts_rank_cd r0.search_vector (plainto_tsquery q) = 0 := by
    simp only [ts_rank_cd]
    rw [if_neg (by simp_all)]
  exact ⟨this, by simp [toSearchResult, this]⟩

/-- The fallback-only ranked row of the C6 witness store. -/
def rowC6 : RankedRow := (recC4, 0)

/-- Witness for C6: in the one-row store, the query `"%"` matches only via
the fallback and the row is ranked with score 0. -/
theorem c6_ranking_order_witness :
    rowC6 ∈ rankedRows dbC4 "%" none none
    ∧ tsMatch rowC6.1.search_vector (plainto_tsquery "%") = false
    ∧ rowC6.2 = 0 ∧ (toSearchResult rowC6).rank = 0 :=
  ⟨by decide, by decide,
    (c6_ranking_order dbC4 "%" none none 20 0).2.2.2 rowC6 (by decide) (by decide)⟩

/-! ### Claim C7: pagination invariant -/

/-- C7: the reported `total` equals the number of matching rows whatever
`limit`/`offset` are; the concatenation of the first `n` pages (offset
stepping by `limit`) is the first `n * limit` entries of the full ranked
result list; and once `n * limit` covers its length, the concatenation is
the whole ranked list — no duplicates, no omissions. -/
theorem c7_pagination_invariant (db : Store) (q : String) (app typ : Option String)
    (limit offset : Nat) :
    (unifiedSearchCore db q app typ limit offset).total =
      (matchedRows db q (parseFilterCSV app) (parseFilterCSV typ)).length
    ∧ (∀ n : Nat,
        ((List.range n).map
          (fun i => (unifiedSearchCore db q app typ limit (i * limit)).results)).flatten =
        ((rankedRows db q (parseFilterCSV app) (parseFilterCSV typ)).map
          toSearchResult).take (n * limit))
    ∧ (∀ n : Nat,
        (rankedRows db q (parseFilterCSV app) (parseFilterCSV typ)).length ≤ n * limit →
        ((List.range n).map
          (fun i => (unifiedSearchCore db q app typ limit (i * limit)).results)).flatten =
        (rankedRows db q (parseFilterCSV app) (parseFilterCSV typ)).map toSearchResult) := by
  have hpages : ∀ n : Nat,
      ((List.range n).map
        (fun i => (unifiedSearchCore db q app typ limit (i * limit)).results)).flatten =
      ((rankedRows db q (parseFilterCSV app) (parseFilterCSV typ)).map
        toSearchResult).take (n * limit) := by
    intro n
    induction n with
    | zero => simp
    | succ m ih =>
      rw [List.range_succ, List.map_append, List.flatten_append, ih]
      have hone : ((unifiedSearchCore db q app typ limit (m * limit)).results) =
          (((rankedRows db q (parseFilterCSV app) (parseFilterCSV typ)).map
            toSearchResult).drop (m * limit)).take limit := by
        simp [unifiedSearchCore, List.map_take, List.map_drop]
      rw [Nat.succ_mul, List.take_add]
      simp [hone]
  refine ⟨rfl, hpages, ?_⟩
  intro n hn
  rw [hpages n]
  exact List.take_of_length_le (by simpa using hn)

/-- Witness for C7 at the one-row store: one page of size 20 already
reproduces the whole ranked list. -/
theorem c7_pagination_invariant_witness :
    (rankedRows dbC4 "%" none none).length ≤ 1 * 20
    ∧ ((List.range 1).map
        (fun i => (unifiedSearchCore dbC4 "%" none none 20 (i * 20)).results)).flatten =
      (rankedRows dbC4 "%" none none).map toSearchResult :=
  ⟨by decide, (c7_pagination_invariant dbC4 "%" none none 20 0).2.2 1 (by decide)⟩

/-! ### Claim C8: the search-log side effect -/

/-- C8 counterexample: the store holds a row matching `q = "acme"`, so
results are computed, yet when the log commit fails the handler raises and
the call produces no response at all — the logging failure does suppress
the already-computed results, contrary to the claim. -/
theorem c8_log_failure_counterexample :
    (unifiedSearchCore dbC4 "acme" none none 20 0).total = 1
    ∧ unified_search dbC4 "acme" none none 20 0 none false = Except.error () :=
  ⟨by decide, rfl⟩

/-- C8 (amended): when the log write succeeds, every call appends exactly
one `SearchLogEntry` recording the query, the parsed app/type filters, the
pre-pagination total and the user — also when the total is 0 — and leaves
the records untouched; but a failure of the logging commit propagates and
prevents the computed results from being returned (previous theorem). -/
theorem c8_log_appended_amended (db : Store) (q : String) (app typ : Option String)
    (limit offset : Nat) (user : Option String) :
    ∃ resp store2,
      unified_search db q app typ limit offset user true = Except.ok (resp, store2)
      ∧ resp = unifiedSearchCore db q app typ limit offset
      ∧ store2.records = db.records
      ∧ store2.logs = db.logs ++
          [{ query := q, filters_app := parseFilterCSV app,
             filters_type := parseFilterCSV typ,
             results_count := (unifiedSearchCore db q app typ limit offset).total,
             user := user }] :=
  ⟨unifiedSearchCore db q app typ limit offset, _, rfl, rfl, rfl, rfl⟩

/-! ### Claim C10: LIKE wildcards leak into the fallback -/

/-- Two percent signs also match everything. -/
theorem likeMatch_percent2 (s : List Char) : likeMatch ['%', '%'] s = true := by
  cases s with
  | nil => decide
  | cons c cs =>
    rw [likeMatch_percent_cons]
    simp [List.tails_cons, likeMatch_percent]

/-- Three percent signs match everything — this is the pattern the code
builds for `q = "%"`. -/
theorem likeMatch_percent3 (s : List Char) : likeMatch ['%', '%', '%'] s = true := by
  cases s with
  | nil => decide
  | cons c cs =>
    rw [likeMatch_percent_cons]
    simp [List.tails_cons, likeMatch_percent2]

/-- For `q = "%"` the title fallback accepts every record. -/
theorem titleFallback_percent (r : IndexRecord) : titleFallback "%" r = true := by
  have h : lowerStr ("%" ++ "%" ++ "%") = ['%', '%', '%'] := by decide
  rw [titleFallback, ilikeB, h]
  exact likeMatch_percent3 _

/-- Record exercising the `_` wildcard: its title contains `abc` but not
the literal three-character string `a_c`. -/
def recC10 : IndexRecord :=
  { id := 1, name := "n", source_app := "crm", source_type := "contact",
    record_id := "r-10", title := "xabcx", content := none, tags := none,
    url := none, last_synced := 0, created_at := 0, updated_at := 0,
    search_vector := [] }

/-- C10: the query text is interpolated unescaped into the `ILIKE`
pattern, so `%` and `_` act as SQL wildcards, not literals: for `q = "%"`
the fallback of `unified_search` accepts every record and the suggestion
filter keeps every title (the suggestions become all distinct titles,
sorted and limited); and `q = "a_c"` matches the title `"xabcx"` although
`"a_c"` is not a substring of it. -/
theorem c10_wildcard_injection :
    (∀ r : IndexRecord, titleFallback "%" r = true)
    ∧ (∀ (db : Store) (limit : Nat),
        search_suggestions db "%" limit =
          (List.insertionSort (fun a b => titleLe a b = true)
            ((db.records.map (fun r => r.title)).dedup)).take limit)
    ∧ titleFallback "a_c" recC10 = true
    ∧ containsCI recC10.title "a_c" = false := by
  refine ⟨titleFallback_percent, ?_, by decide, by decide⟩
  intro db limit
  rw [search_suggestions,
    List.filter_eq_self.mpr (fun r _ => titleFallback_percent r)]

/-! ### Claim C3: bulk ingestion -/

/-- The update arm never changes a row's `source_app`. -/
theorem updateRecordOf_source_app (item : IndexCreate) (now : Nat) (r : IndexRecord) :
    (updateRecordOf item now r).source_app = r.source_app := rfl

/-- The update arm never changes a row's `record_id`. -/
theorem updateRecordOf_record_id (item : IndexCreate) (now : Nat) (r : IndexRecord) :
    (updateRecordOf item now r).record_id = r.record_id := rfl

/-- After an upsert, the item's natural key is present in the store. -/
theorem upsert_hasKey_self (db : Store) (item : IndexCreate) (now : Nat) :
    hasKey (upsert_index db item now).1 item.source_app.value item.record_id = true := by
  unfold upsert_index
  cases hf : db.records.find? (keyB item) with
  | none =>
    simp [hasKey, List.any_append, newRecordOf, applySearchVectorTrigger]
  | some old =>
    have hmem := List.mem_of_find?_eq_some hf
    have hk : keyB item old = true := List.find?_some hf
    simp only [hasKey, List.any_eq_true]
    refine ⟨if keyB item old then updateRecordOf item now old else old,
      List.mem_map.mpr ⟨old, hmem, rfl⟩, ?_⟩
    rw [if_pos hk]
    simpa [keyB, updateRecordOf_source_app, updateRecordOf_record_id] using hk

/-- An upsert never removes a natural key from the store. -/
theorem upsert_hasKey_mono (db : Store) (item : IndexCreate) (now : Nat)
    (k1 k2 : String) (h : hasKey db k1 k2 = true) :
    hasKey (upsert_index db item now).1 k1 k2 = true := by
  unfold upsert_index
  cases hf : db.records.find? (keyB item) with
  | none =>
    simp only [hasKey] at h ⊢
    simp [List.any_append, h]
  | some old =>
    simp only [hasKey, List.any_eq_true] at h ⊢
    rcases h with ⟨r, hr, hp⟩
    refine ⟨if keyB item r then updateRecordOf item now r else r,
      List.mem_map.mpr ⟨r, hr, rfl⟩, ?_⟩
    by_cases hk : keyB item r
    · rw [if_pos hk]
      simpa [updateRecordOf_source_app, updateRecordOf_record_id] using hp
    · rw [if_neg hk]
      exact hp

/-- Once the shared transaction is aborted, the rest of the loop performs
no write and turns every remaining item into a `PendingRollbackError`
description. -/
theorem bulk_poisoned (nowAt : Nat → Nat) (exc : Nat → Option String) :
    ∀ (items : List IndexCreate) (i : Nat) (s : BulkSession), s.aborted = true →
      bulkIndexAux nowAt exc i s items =
        (s, 0, 0, items.map (fun it => bulkErrorOf it pendingRollbackMsg))
  | [], _, _, _ => rfl
  | item :: rest, i, s, h => by
    simp only [bulkIndexAux, h, if_true]
    rw [bulk_poisoned nowAt exc rest (i + 1) s h]
    rfl

/-- The bulk loop never removes a natural key from the pending store. -/
theorem bulk_hasKey_mono (nowAt : Nat → Nat) (exc : Nat → Option String) :
    ∀ (items : List IndexCreate) (i : Nat) (s : BulkSession) (k1 k2 : String),
      hasKey s.pending k1 k2 = true →
      hasKey (bulkIndexAux nowAt exc i s items).1.pending k1 k2 = true
  | [], _, _, _, _, h => h
  | item :: rest, i, s, k1, k2, h => by
    by_cases hab : s.aborted = true
    · rw [bulk_poisoned nowAt exc (item :: rest) i s hab]
      exact h
    · simp only [bulkIndexAux, if_neg hab]
      cases he : exc i with
      | some msg =>
        exact bulk_hasKey_mono nowAt exc rest (i + 1) _ k1 k2 h
      | none =>
        simp only [apply_ite Prod.fst, ite_self]
        exact bulk_hasKey_mono nowAt exc rest (i + 1) _ k1 k2
          (upsert_hasKey_mono s.pending item (nowAt i) k1 k2 h)

/-- Every item of the batch lands in exactly one of the two counters or
the error list: the loop attempts each item exactly once, whatever the
transaction state does. -/
theorem bulk_counts (nowAt : Nat → Nat) (exc : Nat → Option String) :
    ∀ (items : List IndexCreate) (i : Nat) (s : BulkSession),
      (bulkIndexAux nowAt exc i s items).2.1
        + (bulkIndexAux nowAt exc i s items).2.2.1
        + (bulkIndexAux nowAt exc i s items).2.2.2.length = items.length
  | [], _, _ => rfl
  | item :: rest, i, s => by
    by_cases hab : s.aborted = true
    · rw [bulk_poisoned nowAt exc (item :: rest) i s hab]
      simp
    · simp only [bulkIndexAux, if_neg hab]
      cases he : exc i with
      | some msg =>
        have ih := bulk_counts nowAt exc rest (i + 1) { s with aborted := true }
        simp only [List.length_cons]
        omega
      | none =>
        have ih := bulk_counts nowAt exc rest (i + 1)
          { s with pending := (upsert_index s.pending item (nowAt i)).1 }
        cases hc : (upsert_index s.pending item (nowAt i)).2.2 with
        | false =>
          rw [if_neg Bool.false_ne_true]
          dsimp only
          simp only [List.length_cons]
          omega
        | true =>
          rw [if_pos rfl]
          dsimp only
          simp only [List.length_cons]
          omega

/-- A batch none of whose upserts raises keeps the transaction healthy,
produces no error, and classifies every item as created or updated. -/
theorem bulk_clean (nowAt : Nat → Nat) (exc : Nat → Option String) :
    ∀ (items : List IndexCreate) (i : Nat) (s : BulkSession), s.aborted = false →
      (∀ k, k < items.length → exc (i + k) = none) →
      (bulkIndexAux nowAt exc i s items).1.aborted = false
      ∧ (bulkIndexAux nowAt exc i s items).2.2.2 = []
      ∧ (bulkIndexAux nowAt exc i s items).2.1
          + (bulkIndexAux nowAt exc i s items).2.2.1 = items.length
  | [], _, _, hs, _ => ⟨hs, rfl, rfl⟩
  | item :: rest, i, s, hs, hnone => by
    have h0 : exc i = none := by simpa using hnone 0 (by simp)
    have ih := bulk_clean nowAt exc rest (i + 1)
      { s with pending := (upsert_index s.pending item (nowAt i)).1 }
      hs (fun k hk => by
        rw [show (i + 1) + k = i + (k + 1) by omega]
        exact hnone (k + 1) (by simpa using Nat.succ_lt_succ hk))
    simp only [bulkIndexAux, if_neg (by simp [hs] : ¬s.aborted = true), h0]
    cases hc : (upsert_index s.pending item (nowAt i)).2.2 with
    | false =>
      rw [if_neg Bool.false_ne_true]
      refine ⟨ih.1, ih.2.1, ?_⟩
      have := ih.2.2
      dsimp only
      simp only [List.length_cons]
      omega
    | true =>
      rw [if_pos rfl]
      refine ⟨ih.1, ih.2.1, ?_⟩
      have := ih.2.2
      dsimp only
      simp only [List.length_cons]
      omega

/-- In a batch none of whose upserts raises, every item ends up present
under its natural key in the pending store the final commit makes
durable. -/
theorem bulk_clean_persist (nowAt : Nat → Nat) (exc : Nat → Option String) :
    ∀ (items : List IndexCreate) (i : Nat) (s : BulkSession) (j : Nat)
      (it : IndexCreate), s.aborted = false →
      (∀ k, k < items.length → exc (i + k) = none) → items[j]? = some it →
      hasKey (bulkIndexAux nowAt exc i s items).1.pending
        it.source_app.value it.record_id = true
  | [], _, _, j, _, _, _, hj => by simp at hj
  | item :: rest, i, s, 0, it, hs, hnone, hj => by
    rw [List.getElem?_cons_zero] at hj
    have hit : item = it := Option.some_injective _ hj
    subst hit
    have h0 : exc i = none := by simpa using hnone 0 (by simp)
    simp only [bulkIndexAux, if_neg (by simp [hs] : ¬s.aborted = true), h0]
    simp only [apply_ite Prod.fst, ite_self]
    exact bulk_hasKey_mono nowAt exc rest (i + 1) _ _ _
      (upsert_hasKey_self s.pending item (nowAt i))
  | item :: rest, i, s, j + 1, it, hs, hnone, hj => by
    rw [List.getElem?_cons_succ] at hj
    have h0 : exc i = none := by simpa using hnone 0 (by simp)
    simp only [bulkIndexAux, if_neg (by simp [hs] : ¬s.aborted = true), h0]
    simp only [apply_ite Prod.fst, ite_self]
    exact bulk_clean_persist nowAt exc rest (i + 1) _ j it hs
      (fun k hk => by
        rw [show (i + 1) + k = i + (k + 1) by omega]
        exact hnone (k + 1) (by simpa using Nat.succ_lt_succ hk))
      hj

/-- Any in-loop failure leaves the final transaction state aborted. -/
theorem bulk_aborts (nowAt : Nat → Nat) (exc : Nat → Option String) :
    ∀ (items : List IndexCreate) (i : Nat) (s : BulkSession) (j : Nat)
      (msg : String), j < items.length → exc (i + j) = some msg →
      (bulkIndexAux nowAt exc i s items).1.aborted = true
  | [], _, _, j, _, hj, _ => by simp at hj
  | item :: rest, i, s, j, msg, hj, he => by
    by_cases hab : s.aborted = true
    · rw [bulk_poisoned nowAt exc (item :: rest) i s hab]
      exact hab
    · simp only [bulkIndexAux, if_neg hab]
      cases hx : exc i with
      | some m =>
        rw [bulk_poisoned nowAt exc rest (i + 1) { s with aborted := true } rfl]
      | none =>
        cases j with
        | zero => rw [Nat.add_zero] at he; exact absurd he (by simp [hx])
        | succ k =>
          simp only [apply_ite Prod.fst, ite_self]
          exact bulk_aborts nowAt exc rest (i + 1) _ k msg
            (by simpa using Nat.lt_of_succ_lt_succ hj)
            (by rw [show (i + 1) + k = i + (k + 1) by omega]; exact he)

/-- Shape of the loop's accumulators at the first failing item: every
item before it was counted as created or updated, the failing item
contributes its own error description, and every item after it fails with
`PendingRollbackError` and contributes one description too. -/
theorem bulk_first_failure (nowAt : Nat → Nat) (exc : Nat → Option String) :
    ∀ (items : List IndexCreate) (i : Nat) (s : BulkSession) (j0 : Nat)
      (it0 : IndexCreate) (msg : String), s.aborted = false →
      items[j0]? = some it0 → exc (i + j0) = some msg →
      (∀ k, k < j0 → exc (i + k) = none) →
      (bulkIndexAux nowAt exc i s items).2.2.2 =
        bulkErrorOf it0 msg ::
          (items.drop (j0 + 1)).map (fun it => bulkErrorOf it pendingRollbackMsg)
      ∧ (bulkIndexAux nowAt exc i s items).2.1
          + (bulkIndexAux nowAt exc i s items).2.2.1 = j0
  | [], _, _, j0, _, _, _, hj, _, _ => by simp at hj
  | item :: rest, i, s, 0, it0, msg, hs, hj, he, _ => by
    rw [List.getElem?_cons_zero] at hj
    have hit : item = it0 := Option.some_injective _ hj
    subst hit
    rw [Nat.add_zero] at he
    simp only [bulkIndexAux, if_neg (by simp [hs] : ¬s.aborted = true), he]
    rw [bulk_poisoned nowAt exc rest (i + 1) { s with aborted := true } rfl]
    exact ⟨rfl, rfl⟩
  | item :: rest, i, s, j0 + 1, it0, msg, hs, hj, he, hmin => by
    rw [List.getElem?_cons_succ] at hj
    have h0 : exc i = none := by simpa using hmin 0 (by omega)
    have ih := bulk_first_failure nowAt exc rest (i + 1)
      { s with pending := (upsert_index s.pending item (nowAt i)).1 }
      j0 it0 msg hs hj
      (by rw [show (i + 1) + j0 = i + (j0 + 1) by omega]; exact he)
      (fun k hk => by
        rw [show (i + 1) + k = i + (k + 1) by omega]
        exact hmin (k + 1) (by omega))
    simp only [bulkIndexAux, if_neg (by simp [hs] : ¬s.aborted = true), h0,
      List.drop_succ_cons]
    cases hc : (upsert_index s.pending item (nowAt i)).2.2 with
    | false =>
      rw [if_neg Bool.false_ne_true]
      refine ⟨ih.1, ?_⟩
      have := ih.2
      dsimp only
      omega
    | true =>
      rw [if_pos rfl]
      refine ⟨ih.1, ?_⟩
      have := ih.2
      dsimp only
      omega

/-- A request body containing any invalid item is rejected whole by
validation. -/
theorem parseBulk_any_invalid :
    ∀ raw : List RawIndexItem,
      raw.any (fun x => (parseIndexItem x).isNone) = true →
      parseBulkRequest raw = Except.error "validation error"
  | [], h => by simp at h
  | x :: xs, h => by
    simp only [parseBulkRequest]
    cases hp : parseIndexItem x with
    | none => rfl
    | some it =>
      simp only [List.any_cons, hp, Option.isNone_some, Bool.false_or] at h
      rw [parseBulk_any_invalid xs h]

/-- A valid raw item for the C3 counterexample. -/
def rawC3good : RawIndexItem :=
  { name := "g", source_app := "crm", source_type := "contact",
    record_id := "g-1", title := "Good" }

/-- A raw item whose `source_app` is outside the enumeration. -/
def rawC3bad : RawIndexItem :=
  { name := "b", source_app := "nonexistent", source_type := "contact",
    record_id := "b-1", title := "Bad" }

/-- First item of the C3 failing batch (its upsert succeeds). -/
def itC3a : IndexCreate :=
  { name := "x", source_app := .crm, source_type := .task,
    record_id := "t-1", title := "T1" }

/-- Second item of the C3 failing batch (its upsert raises a DB error). -/
def itC3b : IndexCreate :=
  { name := "y", source_app := .social, source_type := .post,
    record_id := "p-2", title := "P2" }

/-- Third item of the C3 failing batch (valid, but reached only after the
transaction is aborted). -/
def itC3c : IndexCreate :=
  { name := "z", source_app := .jobs, source_type := .job,
    record_id := "j-3", title := "J3" }

/-- Failure oracle of the C3 batches: only the second item raises. -/
def excC3 : Nat → Option String :=
  fun i => if i == 1 then some "boom" else none

/-- C3 counterexample, refuting per-item independence in both directions
the code actually takes: (i) a batch whose second item has an invalid
`source_app` is rejected whole by request validation — the first, valid
item is never attempted and no per-item error list is produced; (ii) in a
validated three-item batch whose second upsert raises, the shared
transaction aborts: the third (valid) item fails with
`PendingRollbackError` instead of being processed independently, the
final commit raises so no accumulators are returned, and the rollback
leaves the durable store without the first (valid, succeeded) item. -/
theorem c3_bulk_isolation_counterexample :
    parseIndexItem rawC3bad = none
    ∧ bulkEndpoint emptyStore [rawC3good, rawC3bad] (fun _ => 0) (fun _ => none) =
        (emptyStore, Except.error "validation error")
    ∧ bulk_index emptyStore [itC3a, itC3b, itC3c] (fun _ => 0) excC3 =
        (emptyStore, Except.error pendingRollbackMsg)
    ∧ (bulkIndexAux (fun _ => 0) excC3 0 { pending := emptyStore, aborted := false }
        [itC3a, itC3b, itC3c]).2.2.2 =
        [bulkErrorOf itC3b "boom", bulkErrorOf itC3c pendingRollbackMsg]
    ∧ hasKey (bulk_index emptyStore [itC3a, itC3b, itC3c] (fun _ => 0) excC3).1
        itC3a.source_app.value itC3a.record_id = false :=
  ⟨by decide, rfl, rfl, by decide, by decide⟩

/-- C3 (amended): bulk ingestion attempts each item of a validated batch
exactly once, in order, every item landing in exactly one of the
created/updated counters or the error list. But items are not processed
independently and the batch is not transaction-free: an invalid
`source_app`/`source_type` enum value rejects the entire batch at request
validation before any item is attempted; when no upsert raises, the one
final commit persists every item and the counts are returned with an
empty error list; and when some item's upsert raises a database error,
the shared transaction aborts — the items before the first failure were
counted created/updated, the failing item contributes its
`{source_app}:{record_id} – {reason}` description, every later item fails
with `PendingRollbackError` and contributes one description too, the
final commit raises so none of these accumulators is returned, and the
rollback leaves the durable store exactly as before the call. -/
theorem c3_bulk_isolation_amended :
    (∀ (db : Store) (items : List IndexCreate) (nowAt : Nat → Nat)
        (exc : Nat → Option String),
      (bulkIndexAux nowAt exc 0 { pending := db, aborted := false } items).2.1
        + (bulkIndexAux nowAt exc 0 { pending := db, aborted := false } items).2.2.1
        + (bulkIndexAux nowAt exc 0 { pending := db, aborted := false }
            items).2.2.2.length = items.length)
    ∧ (∀ (db : Store) (items : List IndexCreate) (nowAt : Nat → Nat)
        (exc : Nat → Option String),
        (∀ k, k < items.length → exc k = none) →
        bulk_index db items nowAt exc =
          ((bulkIndexAux nowAt exc 0 { pending := db, aborted := false } items).1.pending,
            Except.ok
              ((bulkIndexAux nowAt exc 0 { pending := db, aborted := false } items).2.1,
               (bulkIndexAux nowAt exc 0 { pending := db, aborted := false } items).2.2.1,
               []))
        ∧ (bulkIndexAux nowAt exc 0 { pending := db, aborted := false } items).2.1
            + (bulkIndexAux nowAt exc 0 { pending := db, aborted := false }
                items).2.2.1 = items.length
        ∧ (∀ (j : Nat) (it : IndexCreate), items[j]? = some it →
            hasKey (bulkIndexAux nowAt exc 0 { pending := db, aborted := false }
              items).1.pending it.source_app.value it.record_id = true))
    ∧ (∀ (db : Store) (items : List IndexCreate) (nowAt : Nat → Nat)
        (exc : Nat → Option String) (j : Nat) (msg : String),
        j < items.length → exc j = some msg →
        bulk_index db items nowAt exc = (db, Except.error pendingRollbackMsg))
    ∧ (∀ (db : Store) (items : List IndexCreate) (nowAt : Nat → Nat)
        (exc : Nat → Option String) (j0 : Nat) (it0 : IndexCreate) (msg : String),
        items[j0]? = some it0 → exc j0 = some msg →
        (∀ k, k < j0 → exc k = none) →
        (bulkIndexAux nowAt exc 0 { pending := db, aborted := false } items).2.2.2 =
          bulkErrorOf it0 msg ::
            (items.drop (j0 + 1)).map (fun it => bulkErrorOf it pendingRollbackMsg)
        ∧ (bulkIndexAux nowAt exc 0 { pending := db, aborted := false } items).2.1
            + (bulkIndexAux nowAt exc 0 { pending := db, aborted := false }
                items).2.2.1 = j0)
    ∧ (∀ (db : Store) (raw : List RawIndexItem) (nowAt : Nat → Nat)
        (exc : Nat → Option String),
        raw.any (fun x => (parseIndexItem x).isNone) = true →
        bulkEndpoint db raw nowAt exc = (db, Except.error "validation error")) := by
  refine ⟨?_, ?_, ?_, ?_, ?_⟩
  · intro db items nowAt exc
    exact bulk_counts nowAt exc items 0 { pending := db, aborted := false }
  · intro db items nowAt exc hnone
    have hc := bulk_clean nowAt exc items 0 { pending := db, aborted := false } rfl
      (fun k hk => by simpa using hnone k hk)
    refine ⟨?_, hc.2.2, ?_⟩
    · rw [bulk_index, if_neg (by simp [hc.1]), hc.2.1]
    · intro j it hj
      exact bulk_clean_persist nowAt exc items 0 { pending := db, aborted := false }
        j it rfl (fun k hk => by simpa using hnone k hk) hj
  · intro db items nowAt exc j msg hj he
    have ha := bulk_aborts nowAt exc items 0 { pending := db, aborted := false }
      j msg hj (by simpa using he)
    rw [bulk_index, if_pos ha]
  · intro db items nowAt exc j0 it0 msg hj he hmin
    exact bulk_first_failure nowAt exc items 0 { pending := db, aborted := false }
      j0 it0 msg rfl hj (by simpa using he) (fun k hk => by simpa using hmin k hk)
  · intro db raw nowAt exc h
    rw [bulkEndpoint, parseBulk_any_invalid raw h]

/-- Witness for C3's amended claim: a clean one-item batch persists its
item; the three-item batch failing at index 1 rolls back whole, with the
first-failure error shape; a batch holding an invalid raw item is
rejected whole. -/
theorem c3_bulk_isolation_amended_witness :
    excC3 1 = some "boom"
    ∧ hasKey (bulkIndexAux (fun _ => 0) (fun _ => none) 0
        { pending := emptyStore, aborted := false } [itC3a]).1.pending
        itC3a.source_app.value itC3a.record_id = true
    ∧ bulk_index emptyStore [itC3a, itC3b, itC3c] (fun _ => 0) excC3 =
        (emptyStore, Except.error pendingRollbackMsg)
    ∧ (bulkIndexAux (fun _ => 0) excC3 0 { pending := emptyStore, aborted := false }
        [itC3a, itC3b, itC3c]).2.2.2 =
        bulkErrorOf itC3b "boom" ::
          ([itC3a, itC3b, itC3c].drop (1 + 1)).map
            (fun it => bulkErrorOf it pendingRollbackMsg)
    ∧ bulkEndpoint emptyStore [rawC3bad] (fun _ => 0) excC3 =
        (emptyStore, Except.error "validation error") :=
  ⟨rfl,
   (c3_bulk_isolation_amended.2.1 emptyStore [itC3a] (fun _ => 0) (fun _ => none)
      (fun _ _ => rfl)).2.2 0 itC3a (by decide),
   c3_bulk_isolation_amended.2.2.1 emptyStore [itC3a, itC3b, itC3c] (fun _ => 0)
     excC3 1 "boom" (by decide) rfl,
   (c3_bulk_isolation_amended.2.2.2.1 emptyStore [itC3a, itC3b, itC3c] (fun _ => 0)
     excC3 1 itC3b "boom" (by decide) rfl
     (fun k hk => by
       have hk0 : k = 0 := by omega
       subst hk0
       rfl)).1,
   c3_bulk_isolation_amended.2.2.2.2 emptyStore [rawC3bad] (fun _ => 0) excC3
     (by decide)⟩

end SearchPro
